import Mathlib

/-!
Verification of the NaukriAI candidate-matching engines.

This file gives a shallow embedding of the deterministic scoring core of the
repository — `ai_matching.py` (the lenient weighted engine `AdvancedCandidateMatcher`
and the refinement stage `CandidateRanker`) and `advanced_matching.py` (the strict
engine) — and proves the specification claims about them.

Modelling conventions:
* Python strings are `List Char` (`Str`); `in` on strings is the substring test
  `isSubstr`, `in` on lists is list membership.
* Python floats are modelled as exact rationals `ℚ`.
* Python `list[:n]` is `pySlice` (including negative-index semantics).
* `list.sort(key=…, reverse=True)` — a stable descending sort — is modelled by the
  stable insertion sort `sortDescBy`.
* The external LLM call used by the refinement stage is an injected oracle
  `RankCandidate → Option ℚ`; `none` models the call raising an exception.
-/

/-- Python strings, modelled as lists of characters. -/
abbrev Str := List Char

/-- Python `str.lower()`. -/
def lowerStr (s : Str) : Str := s.map Char.toLower

/-- Python substring test `sub in s` (empty string is a substring of anything). -/
def isSubstr (sub : Str) : Str → Bool
  | [] => sub.isEmpty
  | c :: rest => sub.isPrefixOf (c :: rest) || isSubstr sub rest

/-- Python slice `l[:n]` for an `int` index `n`: nonnegative `n` takes the first
`n` elements; negative `n` drops the last `-n` elements. -/
def pySlice (n : Int) (l : List α) : List α :=
  if 0 ≤ n then l.take n.toNat else l.take (l.length - (-n).toNat)

/-- Truthiness of an optional Python string (`None` and `''` are falsy). -/
def truthyStr : Option Str → Bool
  | none => false
  | some s => !s.isEmpty

/-- Truthiness of an optional Python list (`None` and `[]` are falsy). -/
def truthyList : Option (List α) → Bool
  | none => false
  | some l => !l.isEmpty

/-- One step of the stable descending insertion sort: `x` is placed before the
first element whose key is `≤ key x`, so equal keys keep their original order —
the behaviour of Python's stable `list.sort(key=…, reverse=True)`. -/
def insertDescBy (key : α → ℚ) (x : α) : List α → List α
  | [] => [x]
  | y :: ys => if key x < key y then y :: insertDescBy key x ys else x :: y :: ys

/-- Stable descending sort by a rational key, modelling
`list.sort(key=…, reverse=True)`. -/
def sortDescBy (key : α → ℚ) (l : List α) : List α :=
  l.foldr (insertDescBy key) []

namespace AIMatching

/-- `_preprocess_text` from `ai_matching.py`:
`' '.join(re.sub(r'[^\w\s-]', '', text.lower()).split())` — lowercase, drop
characters that are not word characters, whitespace or hyphens, then collapse
whitespace runs to single spaces. -/
def preprocess_text (s : Str) : Str :=
  let kept := (s.map Char.toLower).filter
    (fun c => c.isAlphanum || c = '_' || c.isWhitespace || c = '-')
  List.intercalate [' ']
    ((kept.splitOnP (fun c => c.isWhitespace)).filter (fun w => !w.isEmpty))

/-- The skill-weight table from `_initialize_skill_weights`. -/
def skill_weights_table : List (Str × ℚ) :=
  [("python".data, 1.0), ("javascript".data, 0.9), ("react".data, 0.9),
   ("node.js".data, 0.9), ("machine learning".data, 1.2), ("data science".data, 1.1),
   ("cloud computing".data, 1.0), ("aws".data, 1.0), ("azure".data, 1.0),
   ("kubernetes".data, 1.1), ("docker".data, 1.0), ("devops".data, 1.0),
   ("rag".data, 1.2), ("langchain".data, 1.2), ("llama index".data, 1.2),
   ("langflow".data, 1.1), ("agentic ai".data, 1.3), ("generative-ai".data, 1.3)]

/-- `self.skill_weights.get(skill, 1.0)`: dictionary lookup with default weight 1. -/
def skill_weights (s : Str) : ℚ :=
  match skill_weights_table.find? (fun p => p.1 == s) with
  | some p => p.2
  | none => 1

/-- The word-level match test used in `_calculate_skill_similarity`:
`req_skill in cand_skill or cand_skill in req_skill`. -/
def crossMatch (r c : Str) : Bool := isSubstr r c || isSubstr c r

/-- Sum of skill weights over a list of (preprocessed) skills. -/
def weightSum (l : List Str) : ℚ := (l.map skill_weights).sum

/-- `_calculate_skill_similarity` from `ai_matching.py`.  Returns
`(normalized_score, gaps, matches)`.  The first loop pairs each required skill
with the first matching candidate skill (collected into `matches`) or records it
in `gaps`; the second loop sums the weights of required skills that cross-match
an element of `matches`, normalising by the total weight. -/
def calculate_skill_similarity (required_skills candidate_skills : List Str) :
    ℚ × List Str × List Str :=
  if required_skills.isEmpty then (1, [], [])
  else
    let req := required_skills.map preprocess_text
    let cand := candidate_skills.map preprocess_text
    let matchesL := req.filterMap (fun r => cand.find? (fun c => crossMatch r c))
    let gaps := req.filter (fun r => (cand.find? (fun c => crossMatch r c)).isNone)
    let total_weight := weightSum req
    let match_score := weightSum (req.filter (fun r => matchesL.any (fun m => crossMatch r m)))
    let normalized_score := if 0 < total_weight then match_score / total_weight else 0
    (normalized_score, gaps, matchesL)

/-- Specification-side matched predicate for the weighted skill matcher: a
required skill (preprocessed) is matched when it is a substring of, or contains,
some preprocessed candidate skill token. -/
def matchesSome (candidate_skills : List Str) (r : Str) : Bool :=
  (candidate_skills.map preprocess_text).any (fun c => crossMatch r c)

/-- The experience-bucket table from `_calculate_experience_match`
(`exp_map.get(label.lower(), 0)`). -/
def exp_map (s : Str) : ℕ :=
  if s = "1-3".data then 1
  else if s = "3-5".data then 2
  else if s = "5-10".data then 3
  else if s = "10+".data then 4
  else if s = "15+".data then 5
  else 0

/-- `_calculate_experience_match` from `ai_matching.py` (`req_level` and
`cand_level` are `exp_map.get(….lower(), 0)`). -/
def calculate_experience_match (required_exp candidate_exp : Str) : ℚ :=
  if exp_map (lowerStr required_exp) = 0 ∨ exp_map (lowerStr candidate_exp) = 0 then 1/2
  else if exp_map (lowerStr candidate_exp) ≥ exp_map (lowerStr required_exp) then 1
  else max (1/10) (1/10 + ((exp_map (lowerStr candidate_exp) : ℚ) /
    (exp_map (lowerStr required_exp) : ℚ)) * (9/10))

/-- The seniority table from `_calculate_seniority_match`. -/
def seniority_levels (s : Str) : ℕ :=
  if s = "junior".data then 1
  else if s = "midlevel".data then 2
  else if s = "senior".data then 3
  else 0

/-- `_calculate_seniority_match` from `ai_matching.py`. -/
def calculate_seniority_match (required_seniority candidate_seniority : Str) : ℚ :=
  if seniority_levels (lowerStr required_seniority) = 0
      ∨ seniority_levels (lowerStr candidate_seniority) = 0 then 1/2
  else if seniority_levels (lowerStr candidate_seniority)
      ≥ seniority_levels (lowerStr required_seniority) then 1
  else max (1/10) (1/10 + ((seniority_levels (lowerStr candidate_seniority) : ℚ) /
    (seniority_levels (lowerStr required_seniority) : ℚ)) * (9/10))

/-- `_calculate_employment_match` from `ai_matching.py` (`'remote' in …` is a
substring test on strings). -/
def calculate_employment_match (required_type candidate_type : Str) : ℚ :=
  if lowerStr required_type = lowerStr candidate_type then 1
  else if isSubstr "remote".data (lowerStr required_type)
       || isSubstr "remote".data (lowerStr candidate_type) then 4/5
  else 0

/-- `_calculate_location_match` from `ai_matching.py` (`'remote' in …` here is
membership in a list of location strings). -/
def calculate_location_match (required_locations candidate_locations : List Str) : ℚ :=
  if required_locations.isEmpty then 1
  else
    let req := required_locations.map lowerStr
    let cand := candidate_locations.map lowerStr
    if req.any (fun loc => cand.contains loc) then 1
    else if req.contains "remote".data || cand.contains "remote".data then 4/5
    else 0

/-- A candidate record from the dataset, with the fields read by the engines
(`candidate.get(...)` defaults already folded in). -/
structure Candidate where
  name : Str
  seniority : Str
  skills : List Str
  experience_years : Str
  employment_type : Str
  location : List Str
deriving DecidableEq, Repr

/-- The `CandidateMatch` dataclass from `ai_matching.py`. -/
structure CandidateMatch where
  name : Str
  seniority : Str
  skills : List Str
  experience_years : Str
  employment_type : Str
  location : List Str
  match_score : ℚ
  skill_gaps : List Str
  skill_matches : List Str
  experience_match : ℚ
  seniority_match : ℚ
  employment_match : ℚ
  location_match : ℚ
deriving DecidableEq, Repr

/-- The fixed aggregation weights of `match_candidates`. -/
def weights_sum : ℚ := 0.5 + 0.2 + 0.15 + 0.1 + 0.05

/-- The weighted average `total_score` computed in `match_candidates`. -/
def total_score (skill exp seniority employment location : ℚ) : ℚ :=
  (skill * 0.5 + exp * 0.2 + seniority * 0.15 + employment * 0.1 + location * 0.05)
    / weights_sum

/-- `exp_score = self._calculate_experience_match(…) if experience_years else 1.0`
(`None` and the empty string are falsy). -/
def exp_score_of (experience_years : Option Str) (c : Candidate) : ℚ :=
  match experience_years with
  | some e => if e.isEmpty then 1 else calculate_experience_match e c.experience_years
  | none => 1

/-- `seniority_score = self._calculate_seniority_match(…) if seniority else 1.0`. -/
def seniority_score_of (seniority : Option Str) (c : Candidate) : ℚ :=
  match seniority with
  | some s => if s.isEmpty then 1 else calculate_seniority_match s c.seniority
  | none => 1

/-- `employment_score = self._calculate_employment_match(…) if employment_type else 1.0`. -/
def employment_score_of (employment_type : Option Str) (c : Candidate) : ℚ :=
  match employment_type with
  | some t => if t.isEmpty then 1 else calculate_employment_match t c.employment_type
  | none => 1

/-- `location_score = self._calculate_location_match(…) if locations else 1.0`
(`None` and the empty list are falsy). -/
def location_score_of (locations : Option (List Str)) (c : Candidate) : ℚ :=
  match locations with
  | some ls => if ls.isEmpty then 1 else calculate_location_match ls c.location
  | none => 1

/-- The body of the `for candidate in self.dataset` loop of `match_candidates`:
score one candidate against the requirement.  An optional dimension that is falsy
(`None` or empty) contributes the neutral sub-score `1.0`. -/
def score_candidate (required_skills : List Str)
    (seniority experience_years employment_type : Option Str)
    (locations : Option (List Str)) (c : Candidate) : CandidateMatch :=
  let sim := calculate_skill_similarity required_skills c.skills
  let exp_score := exp_score_of experience_years c
  let seniority_score := seniority_score_of seniority c
  let employment_score := employment_score_of employment_type c
  let location_score := location_score_of locations c
  { name := c.name
    seniority := c.seniority
    skills := c.skills
    experience_years := c.experience_years
    employment_type := c.employment_type
    location := c.location
    match_score := total_score sim.1 exp_score seniority_score employment_score location_score
    skill_gaps := sim.2.1
    skill_matches := sim.2.2
    experience_match := exp_score
    seniority_match := seniority_score
    employment_match := employment_score
    location_match := location_score }

/-- The unsorted `matches` list built by `match_candidates` (dataset order). -/
def raw_matches (dataset : List Candidate) (required_skills : List Str)
    (seniority experience_years employment_type : Option Str)
    (locations : Option (List Str)) : List CandidateMatch :=
  dataset.map (score_candidate required_skills seniority experience_years employment_type locations)

/-- `AdvancedCandidateMatcher.match_candidates` from `ai_matching.py`: score every
candidate, sort by `match_score` descending (stably), return `matches[:top_n]`. -/
def match_candidates (dataset : List Candidate) (required_skills : List Str)
    (seniority experience_years employment_type : Option Str)
    (locations : Option (List Str)) (top_n : Int) : List CandidateMatch :=
  pySlice top_n
    (sortDescBy (fun m => m.match_score)
      (raw_matches dataset required_skills seniority experience_years employment_type locations))

end AIMatching

namespace AdvancedMatching

open AIMatching (Candidate)

/-- The `ScoredCandidate` dataclass from `advanced_matching.py`, restricted to the
deterministically computed fields (the LLM-produced gap analysis and interview
questions do not enter any scoring or ordering decision). -/
structure ScoredCandidate where
  candidate : Candidate
  score : ℚ
  skill_matches : List Str
  missing_skills : List Str
deriving DecidableEq, Repr

/-- `if seniority and candidate.get('seniority') != seniority: continue` —
the strict seniority pre-filter (case-sensitive comparison). -/
def skipSeniority : Option Str → Candidate → Bool
  | none, _ => false
  | some s, c => !s.isEmpty && decide (c.seniority ≠ s)

/-- `if location and location.lower() not in [loc.lower() for loc in …]: continue`. -/
def skipLocation : Option Str → Candidate → Bool
  | none, _ => false
  | some l, c => !l.isEmpty && !((c.location.map lowerStr).contains (lowerStr l))

/-- `if employment_type and employment_type.lower() != candidate.get('employment_type','').lower()`. -/
def skipEmployment : Option Str → Candidate → Bool
  | none, _ => false
  | some e, c => !e.isEmpty && decide (lowerStr e ≠ lowerStr c.employment_type)

/-- `if experience_years and experience_years != candidate.get('experience_years')`. -/
def skipExperience : Option Str → Candidate → Bool
  | none, _ => false
  | some e, c => !e.isEmpty && decide (c.experience_years ≠ e)

/-- `if seniority and candidate.get('seniority') == seniority: score += 10`. -/
def seniorityBonus : Option Str → Candidate → Bool
  | none, _ => false
  | some s, c => !s.isEmpty && decide (c.seniority = s)

/-- `if experience_years and candidate.get('experience_years') == experience_years`. -/
def experienceBonus : Option Str → Candidate → Bool
  | none, _ => false
  | some e, c => !e.isEmpty && decide (c.experience_years = e)

/-- The body of the candidate loop of
`AdvancedCandidateMatcher.match_candidates` in `advanced_matching.py`: `none`
models a `continue` (pre-filter failure or a missing required skill — the strict
hard gate), `some` the `ScoredCandidate` appended for this candidate. -/
def score_one (required_skills preferred_skills : List Str)
    (seniority location employment_type experience_years : Option Str)
    (c : Candidate) : Option ScoredCandidate :=
  if skipSeniority seniority c || skipLocation location c
      || skipEmployment employment_type c || skipExperience experience_years c then
    none
  else
    let candidate_skills := c.skills.map lowerStr
    let required_skills_lower := required_skills.map lowerStr
    let preferred_skills_lower := preferred_skills.map lowerStr
    let matched_required := required_skills_lower.filter (fun s => candidate_skills.contains s)
    let matched_preferred := preferred_skills_lower.filter (fun s => candidate_skills.contains s)
    let missing_required := required_skills_lower.filter (fun s => !candidate_skills.contains s)
    if !missing_required.isEmpty then none
    else
      let score : ℚ :=
        (if !required_skills_lower.isEmpty then
          50 * ((matched_required.length : ℚ) / (required_skills_lower.length : ℚ)) else 0)
        + (if !preferred_skills_lower.isEmpty then
          30 * ((matched_preferred.length : ℚ) / (preferred_skills_lower.length : ℚ)) else 0)
        + (if seniorityBonus seniority c then 10 else 0)
        + (if experienceBonus experience_years c then 10 else 0)
      some { candidate := c
             score := min 100 score
             skill_matches := matched_required ++ matched_preferred
             missing_skills := missing_required }

/-- `AdvancedCandidateMatcher.match_candidates` from `advanced_matching.py`:
pre-filter and score every candidate, sort by score descending (stably), return
`scored_candidates[:top_n]`. -/
def match_candidates (dataset : List Candidate)
    (required_skills preferred_skills : List Str)
    (seniority location employment_type experience_years : Option Str)
    (top_n : Int) : List ScoredCandidate :=
  pySlice top_n
    (sortDescBy (fun s => s.score)
      (dataset.filterMap
        (score_one required_skills preferred_skills seniority location employment_type
          experience_years)))

end AdvancedMatching

namespace Ranker

/-- The fields of a candidate dict read by `CandidateRanker.rank_candidates`
(`match_score` is optional: `candidate.get('match_score', 0) if 'match_score'
in candidate else 0.5`). -/
structure RankCandidate where
  name : Str
  match_score : Option ℚ
  experience_years : Str
  seniority : Str
deriving DecidableEq, Repr

/-- The `ranking_scores` dict written by `rank_candidates` — exactly the six keys
the code stores, each rounded to two decimals. -/
structure RankingScores where
  overall : ℚ
  skill_match : ℚ
  experience : ℚ
  seniority : ℚ
  education : ℚ
  cultural_fit : ℚ
deriving DecidableEq, Repr

/-- A candidate together with its attached `ranking_scores` — the complete data
`rank_candidates` returns per candidate (nothing else is attached). -/
structure RankedCandidate where
  candidate : RankCandidate
  ranking_scores : RankingScores
deriving DecidableEq, Repr

/-- Python `round(x, 2)` modelled as exact rounding to hundredths. -/
def round2 (q : ℚ) : ℚ := (round (q * 100) : ℤ) / 100

/-- Decimal value of a numeric token, used to model Python `float(...)` on the
well-formed digit strings that occur in experience buckets. -/
def strToNum (s : Str) : ℚ :=
  s.foldl (fun n c => n * 10 + ((c.toNat - '0'.toNat : ℕ) : ℚ)) 0

/-- `CandidateRanker._calculate_experience_score`: parse a leading numeric token
out of the bucket label and normalise against a 20-year ceiling. -/
def calculate_experience_score (experience : Str) : ℚ :=
  if experience.isEmpty then 1/2
  else
    let years : ℚ :=
      if experience.contains '-' then strToNum (experience.takeWhile (fun c => c ≠ '-'))
      else if experience.contains '+' then strToNum (experience.filter (fun c => c ≠ '+'))
      else 0
    min 1 (max 0 (years / 20))

/-- `CandidateRanker._calculate_seniority_score` (0–1 scale lookup, default 0.5). -/
def calculate_seniority_score (seniority : Str) : ℚ :=
  let s := lowerStr seniority
  if s = "junior".data then 0.3
  else if s = "midlevel".data then 0.6
  else if s = "senior".data then 0.9
  else if s = "lead".data then 1
  else if s = "principal".data then 1
  else 1/2

/-- An external cultural-fit analyzer: the LLM call of
`_calculate_cultural_fit` for a fixed job description and culture text.
`some v` is a successful call returning score `v`; `none` models the call
raising (network failure, timeout, malformed response). -/
abbrev Analyzer := RankCandidate → Option ℚ

/-- `CandidateRanker._calculate_cultural_fit`: the analyzer result, with the
`except Exception` handler substituting the neutral default 0.5 (the error is
only printed to the console; nothing is attached to the candidate). -/
def calculate_cultural_fit (analyzer : Analyzer) (c : RankCandidate) : ℚ :=
  match analyzer c with
  | some v => v
  | none => 1/2

/-- The default `criteria_weights` of `CandidateRanker`. -/
def criteria_weights_skill : ℚ := 0.4
def criteria_weights_experience : ℚ := 0.25
def criteria_weights_seniority : ℚ := 0.15
def criteria_weights_education : ℚ := 0.1
def criteria_weights_cultural : ℚ := 0.1

/-- The per-candidate body of `CandidateRanker.rank_candidates`: compute the five
sub-scores, blend them with the default criteria weights, and attach the
`ranking_scores` dict (each entry rounded to two decimals). -/
def rank_one (analyzer : Analyzer) (company_culture : Option Str)
    (c : RankCandidate) : RankedCandidate :=
  let skill_score := match c.match_score with
    | some v => v
    | none => 1/2
  let exp_score := calculate_experience_score c.experience_years
  let seniority_score := calculate_seniority_score (lowerStr c.seniority)
  let education_score : ℚ := 0.7
  let cultural_fit_score :=
    if truthyStr company_culture then calculate_cultural_fit analyzer c else 1/2
  let weighted_score :=
    skill_score * criteria_weights_skill
    + exp_score * criteria_weights_experience
    + seniority_score * criteria_weights_seniority
    + education_score * criteria_weights_education
    + cultural_fit_score * criteria_weights_cultural
  { candidate := c
    ranking_scores :=
      { overall := round2 weighted_score
        skill_match := round2 skill_score
        experience := round2 exp_score
        seniority := round2 seniority_score
        education := round2 education_score
        cultural_fit := round2 cultural_fit_score } }

/-- `CandidateRanker.rank_candidates` (with the default criteria weights): score
every candidate in the batch and sort by the overall score descending. -/
def rank_candidates (analyzer : Analyzer) (candidates : List RankCandidate)
    (company_culture : Option Str) : List RankedCandidate :=
  sortDescBy (fun rc => rc.ranking_scores.overall)
    (candidates.map (rank_one analyzer company_culture))

end Ranker

/-! ### Lemmas about the stable descending sort -/

theorem mem_insertDescBy (key : α → ℚ) (x : α) (l : List α) (a : α) :
    a ∈ insertDescBy key x l ↔ a = x ∨ a ∈ l := by
  induction l with
  | nil => simp [insertDescBy]
  | cons y ys ih =>
    by_cases h : key x < key y
    · simp only [insertDescBy, if_pos h, List.mem_cons, ih]
      tauto
    · simp only [insertDescBy, if_neg h, List.mem_cons]

theorem pairwise_insertDescBy (key : α → ℚ) (x : α) (l : List α)
    (h : l.Pairwise (fun a b => key b ≤ key a)) :
    (insertDescBy key x l).Pairwise (fun a b => key b ≤ key a) := by
  induction l with
  | nil => simp [insertDescBy]
  | cons y ys ih =>
    rcases List.pairwise_cons.mp h with ⟨hy, hys⟩
    by_cases hxy : key x < key y
    · rw [insertDescBy, if_pos hxy]
      refine List.pairwise_cons.mpr ⟨?_, ih hys⟩
      intro a ha
      rcases (mem_insertDescBy key x ys a).mp ha with rfl | ha
      · exact le_of_lt hxy
      · exact hy a ha
    · rw [insertDescBy, if_neg hxy]
      refine List.pairwise_cons.mpr ⟨?_, h⟩
      intro a ha
      rcases List.mem_cons.mp ha with rfl | ha
      · exact le_of_not_lt hxy
      · exact le_trans (hy a ha) (le_of_not_lt hxy)

theorem pairwise_sortDescBy (key : α → ℚ) (l : List α) :
    (sortDescBy key l).Pairwise (fun a b => key b ≤ key a) := by
  induction l with
  | nil => exact List.Pairwise.nil
  | cons x xs ih => exact pairwise_insertDescBy key x _ ih

theorem filter_insertDescBy (key : α → ℚ) (x : α) (l : List α) (q : ℚ) :
    (insertDescBy key x l).filter (fun e => decide (key e = q)) =
      if key x = q then x :: l.filter (fun e => decide (key e = q))
      else l.filter (fun e => decide (key e = q)) := by
  induction l with
  | nil =>
    by_cases hx : key x = q <;> simp [insertDescBy, List.filter_cons, hx]
  | cons y ys ih =>
    by_cases hxy : key x < key y
    · rw [insertDescBy, if_pos hxy]
      by_cases hx : key x = q
      · have hy : ¬ key y = q := by
          intro hy; rw [← hx] at hy; exact absurd hy (ne_of_gt hxy)
        simp [List.filter_cons, ih, hx, hy]
      · simp [List.filter_cons, ih, hx]
    · rw [insertDescBy, if_neg hxy]
      by_cases hx : key x = q
      · simp [List.filter_cons, hx]
      · simp [List.filter_cons, hx]

theorem filter_sortDescBy (key : α → ℚ) (l : List α) (q : ℚ) :
    (sortDescBy key l).filter (fun e => decide (key e = q)) =
      l.filter (fun e => decide (key e = q)) := by
  induction l with
  | nil => rfl
  | cons x xs ih =>
    show (insertDescBy key x (sortDescBy key xs)).filter _ = _
    rw [filter_insertDescBy]
    by_cases hx : key x = q
    · rw [if_pos hx, ih]
      simp [List.filter_cons, hx]
    · rw [if_neg hx, ih]
      simp [List.filter_cons, hx]

theorem length_insertDescBy (key : α → ℚ) (x : α) (l : List α) :
    (insertDescBy key x l).length = l.length + 1 := by
  induction l with
  | nil => rfl
  | cons y ys ih =>
    by_cases h : key x < key y
    · rw [insertDescBy, if_pos h, List.length_cons, ih, List.length_cons]
    · rw [insertDescBy, if_neg h, List.length_cons, List.length_cons]

theorem length_sortDescBy (key : α → ℚ) (l : List α) :
    (sortDescBy key l).length = l.length := by
  induction l with
  | nil => rfl
  | cons x xs ih =>
    show (insertDescBy key x (sortDescBy key xs)).length = _
    rw [length_insertDescBy, ih, List.length_cons]

theorem mem_sortDescBy (key : α → ℚ) (l : List α) (a : α) :
    a ∈ sortDescBy key l ↔ a ∈ l := by
  induction l with
  | nil => exact Iff.rfl
  | cons x xs ih =>
    show a ∈ insertDescBy key x (sortDescBy key xs) ↔ _
    rw [mem_insertDescBy, ih, List.mem_cons]

theorem pySlice_sublist (n : Int) (l : List α) : List.Sublist (pySlice n l) l := by
  unfold pySlice
  split
  · exact List.take_sublist _ _
  · exact List.take_sublist _ _

/-! ### Lemmas about the substring test and the skill weights -/

theorem isPrefixOf_self (l : Str) : l.isPrefixOf l = true := by
  induction l with
  | nil => rfl
  | cons c cs ih => simp [List.isPrefixOf, ih]

theorem isSubstr_self (l : Str) : isSubstr l l = true := by
  cases l with
  | nil => rfl
  | cons c cs => simp [isSubstr, isPrefixOf_self]

theorem crossMatch_self (l : Str) : AIMatching.crossMatch l l = true := by
  simp [AIMatching.crossMatch, isSubstr_self]

namespace AIMatching

theorem skill_weights_pos (s : Str) : 0 < skill_weights s := by
  unfold skill_weights
  cases h : skill_weights_table.find? (fun p => p.1 == s) with
  | none => norm_num
  | some p =>
    have hmem := List.mem_of_find?_eq_some h
    have hall : ∀ q ∈ skill_weights_table, (0 : ℚ) < q.2 := by with_unfolding_all decide
    exact hall p hmem

theorem weightSum_cons (a : Str) (l : List Str) :
    weightSum (a :: l) = skill_weights a + weightSum l := by
  simp [weightSum]

theorem weightSum_nonneg (l : List Str) : 0 ≤ weightSum l := by
  induction l with
  | nil => simp [weightSum]
  | cons a l ih =>
    rw [weightSum_cons]
    have := skill_weights_pos a
    linarith

theorem weightSum_pos (l : List Str) (h : l ≠ []) : 0 < weightSum l := by
  cases l with
  | nil => exact absurd rfl h
  | cons a l =>
    rw [weightSum_cons]
    have := skill_weights_pos a
    have := weightSum_nonneg l
    linarith

theorem weightSum_filter_le (p q : Str → Bool) (l : List Str)
    (h : ∀ x ∈ l, p x = true → q x = true) :
    weightSum (l.filter p) ≤ weightSum (l.filter q) := by
  induction l with
  | nil => simp
  | cons a l ih =>
    have ih' := ih (fun x hx => h x (List.mem_cons_of_mem a hx))
    by_cases hp : p a = true
    · have hq := h a (List.mem_cons_self a l) hp
      rw [List.filter_cons, if_pos hp, List.filter_cons, if_pos hq,
        weightSum_cons, weightSum_cons]
      linarith
    · rw [List.filter_cons, if_neg hp]
      by_cases hq : q a = true
      · rw [List.filter_cons, if_pos hq, weightSum_cons]
        have := skill_weights_pos a
        linarith
      · rw [List.filter_cons, if_neg hq]
        exact ih'

theorem weightSum_filter_lt (p q : Str → Bool) (l : List Str)
    (h : ∀ x ∈ l, p x = true → q x = true)
    (x : Str) (hx : x ∈ l) (hpx : p x = false) (hqx : q x = true) :
    weightSum (l.filter p) < weightSum (l.filter q) := by
  induction l with
  | nil => exact absurd hx (List.not_mem_nil x)
  | cons a l ih =>
    have h' := fun y hy => h y (List.mem_cons_of_mem a hy)
    rcases List.mem_cons.mp hx with rfl | hxl
    · rw [List.filter_cons, hpx, List.filter_cons, hqx]
      simp only [Bool.false_eq_true, if_false, if_true]
      rw [weightSum_cons]
      have h1 := weightSum_filter_le p q l h'
      have h2 := skill_weights_pos x
      linarith
    · have ih' := ih h' hxl
      by_cases hp : p a = true
      · have hq := h a (List.mem_cons_self a l) hp
        rw [List.filter_cons, if_pos hp, List.filter_cons, if_pos hq,
          weightSum_cons, weightSum_cons]
        linarith
      · rw [List.filter_cons, if_neg hp]
        by_cases hq : q a = true
        · rw [List.filter_cons, if_pos hq, weightSum_cons]
          have := skill_weights_pos a
          linarith
        · rw [List.filter_cons, if_neg hq]
          exact ih'

end AIMatching

/-- An option produced by `find?` is `none` exactly when `any` is false. -/
theorem find?_isNone_iff_any_eq_false (p : α → Bool) (l : List α) :
    ((l.find? p).isNone = true) ↔ l.any p = false := by
  rw [Option.isNone_iff_eq_none, List.find?_eq_none, List.any_eq_false]

namespace AIMatching

/-- In the weight-scoring loop of `_calculate_skill_similarity`, a required skill
cross-matches an element of the `matches` list exactly when it cross-matches some
candidate skill directly (the `matches` list consists of candidate skills, and a
directly-matching required skill put its own witness into `matches`). -/
theorem any_matches_eq (req cand : List Str) (r : Str) (hr : r ∈ req) :
    ((req.filterMap (fun a => cand.find? (fun c => crossMatch a c))).any
        (fun m => crossMatch r m))
      = cand.any (fun c => crossMatch r c) := by
  cases hfind : cand.find? (fun c => crossMatch r c) with
  | none =>
    have hall := List.find?_eq_none.mp hfind
    have h1 : cand.any (fun c => crossMatch r c) = false := by
      rw [List.any_eq_false]
      intro c hc
      simpa using hall c hc
    rw [h1, List.any_eq_false]
    intro m hm
    rcases List.mem_filterMap.mp hm with ⟨a, _, hfa⟩
    have hmem := List.mem_of_find?_eq_some hfa
    simpa using hall m hmem
  | some c =>
    have hc : crossMatch r c = true := List.find?_some hfind
    have h1 : cand.any (fun c => crossMatch r c) = true :=
      List.any_eq_true.mpr ⟨c, List.mem_of_find?_eq_some hfind, hc⟩
    rw [h1, List.any_eq_true]
    exact ⟨c, List.mem_filterMap.mpr ⟨r, hr, hfind⟩, hc⟩

/-- Unfolding of `_calculate_skill_similarity` for a non-empty requirement. -/
theorem calculate_skill_similarity_eq (required cand : List Str)
    (h : required.isEmpty = false) :
    calculate_skill_similarity required cand =
      (if 0 < weightSum (required.map preprocess_text) then
          weightSum ((required.map preprocess_text).filter
            (fun r => ((required.map preprocess_text).filterMap
                (fun a => (cand.map preprocess_text).find? (fun c => crossMatch a c))).any
              (fun m => crossMatch r m)))
            / weightSum (required.map preprocess_text)
        else 0,
       (required.map preprocess_text).filter
         (fun r => ((cand.map preprocess_text).find? (fun c => crossMatch r c)).isNone),
       (required.map preprocess_text).filterMap
         (fun r => (cand.map preprocess_text).find? (fun c => crossMatch r c))) := by
  unfold calculate_skill_similarity
  rw [if_neg (by simp [h])]

/-- The skill sub-score of `_calculate_skill_similarity` equals the sum of the
weights of the matched required skills divided by the sum of the weights of all
required skills. -/
theorem skill_fst_eq (required cand : List Str) (h : required ≠ []) :
    (calculate_skill_similarity required cand).1 =
      weightSum ((required.map preprocess_text).filter (fun r => matchesSome cand r))
        / weightSum (required.map preprocess_text) := by
  have hE : required.isEmpty = false := by simpa using h
  have hmap : required.map preprocess_text ≠ [] := by
    simpa using h
  have hT : 0 < weightSum (required.map preprocess_text) := weightSum_pos _ hmap
  rw [calculate_skill_similarity_eq required cand hE]
  dsimp only
  rw [if_pos hT]
  congr 1
  refine congrArg weightSum (List.filter_congr ?_)
  intro r hr
  exact any_matches_eq (required.map preprocess_text) (cand.map preprocess_text) r hr

/-- Membership in the `gaps` component: exactly the preprocessed required skills
that match no candidate skill. -/
theorem mem_gaps_iff (required cand : List Str) (h : required ≠ []) (r : Str) :
    r ∈ (calculate_skill_similarity required cand).2.1 ↔
      r ∈ required.map preprocess_text ∧ matchesSome cand r = false := by
  rw [calculate_skill_similarity_eq required cand (by simpa using h)]
  dsimp only
  rw [List.mem_filter]
  exact and_congr_right (fun _ =>
    find?_isNone_iff_any_eq_false (fun c => crossMatch r c) (cand.map preprocess_text))

/-- Every element of the `matches` component is a preprocessed candidate skill. -/
theorem mem_matches_subset (required cand : List Str) (h : required ≠ []) (x : Str)
    (hx : x ∈ (calculate_skill_similarity required cand).2.2) :
    x ∈ cand.map preprocess_text := by
  rw [calculate_skill_similarity_eq required cand (by simpa using h)] at hx
  dsimp only at hx
  rcases List.mem_filterMap.mp hx with ⟨a, _, hfa⟩
  exact List.mem_of_find?_eq_some hfa

/-- The skill sub-score is at most 1. -/
theorem skill_fst_le_one (required cand : List Str) :
    (calculate_skill_similarity required cand).1 ≤ 1 := by
  by_cases h : required = []
  · subst h
    simp [calculate_skill_similarity]
  · rw [skill_fst_eq required cand h]
    have hmap : required.map preprocess_text ≠ [] := by simpa using h
    have hT : 0 < weightSum (required.map preprocess_text) := weightSum_pos _ hmap
    rw [div_le_one hT]
    have := weightSum_filter_le (fun r => matchesSome cand r) (fun _ => true)
      (required.map preprocess_text) (fun _ _ _ => rfl)
    simpa using this

/-- The skill sub-score is nonnegative. -/
theorem skill_fst_nonneg (required cand : List Str) :
    0 ≤ (calculate_skill_similarity required cand).1 := by
  by_cases h : required = []
  · subst h
    simp [calculate_skill_similarity]
  · rw [skill_fst_eq required cand h]
    have hmap : required.map preprocess_text ≠ [] := by simpa using h
    have hT : 0 < weightSum (required.map preprocess_text) := weightSum_pos _ hmap
    exact div_nonneg (weightSum_nonneg _) (le_of_lt hT)

/-- `total_score` is monotone in every sub-score. -/
theorem total_score_mono {a1 a2 b1 b2 c1 c2 d1 d2 e1 e2 : ℚ}
    (ha : a1 ≤ a2) (hb : b1 ≤ b2) (hc : c1 ≤ c2) (hd : d1 ≤ d2) (he : e1 ≤ e2) :
    total_score a1 b1 c1 d1 e1 ≤ total_score a2 b2 c2 d2 e2 := by
  unfold total_score weights_sum
  have h1 : (0.5 + 0.2 + 0.15 + 0.1 + 0.05 : ℚ) = 1 := by norm_num
  rw [h1, div_one, div_one]
  have h2 : (0.5 : ℚ) = 1/2 := by norm_num
  have h3 : (0.2 : ℚ) = 1/5 := by norm_num
  have h4 : (0.15 : ℚ) = 3/20 := by norm_num
  have h5 : (0.1 : ℚ) = 1/10 := by norm_num
  have h6 : (0.05 : ℚ) = 1/20 := by norm_num
  rw [h2, h3, h4, h5, h6]
  linarith

/-- The experience matcher never returns more than 1. -/
theorem calculate_experience_match_le_one (r c : Str) :
    calculate_experience_match r c ≤ 1 := by
  unfold calculate_experience_match
  split
  · norm_num
  · split
    · exact le_refl 1
    · rename_i h0 hlt
      have hr0 : 0 < exp_map (lowerStr r) := Nat.pos_of_ne_zero (fun h => h0 (Or.inl h))
      have hcr : exp_map (lowerStr c) ≤ exp_map (lowerStr r) := le_of_not_le (by simpa using hlt)
      have hdiv : ((exp_map (lowerStr c) : ℚ) / (exp_map (lowerStr r) : ℚ)) ≤ 1 := by
        rw [div_le_one (by exact_mod_cast hr0)]
        exact_mod_cast hcr
      apply max_le
      · norm_num
      · nlinarith

/-- The seniority matcher never returns more than 1. -/
theorem calculate_seniority_match_le_one (r c : Str) :
    calculate_seniority_match r c ≤ 1 := by
  unfold calculate_seniority_match
  split
  · norm_num
  · split
    · exact le_refl 1
    · rename_i h0 hlt
      have hr0 : 0 < seniority_levels (lowerStr r) := Nat.pos_of_ne_zero (fun h => h0 (Or.inl h))
      have hcr : seniority_levels (lowerStr c) ≤ seniority_levels (lowerStr r) :=
        le_of_not_le (by simpa using hlt)
      have hdiv : ((seniority_levels (lowerStr c) : ℚ) /
          (seniority_levels (lowerStr r) : ℚ)) ≤ 1 := by
        rw [div_le_one (by exact_mod_cast hr0)]
        exact_mod_cast hcr
      apply max_le
      · norm_num
      · nlinarith

/-- The employment matcher never returns more than 1. -/
theorem calculate_employment_match_le_one (r c : Str) :
    calculate_employment_match r c ≤ 1 := by
  unfold calculate_employment_match
  split
  · exact le_refl 1
  · split
    · norm_num
    · norm_num

/-- The location matcher never returns more than 1. -/
theorem calculate_location_match_le_one (r c : List Str) :
    calculate_location_match r c ≤ 1 := by
  unfold calculate_location_match
  split
  · exact le_refl 1
  · dsimp only
    split
    · exact le_refl 1
    · split
      · norm_num
      · norm_num

end AIMatching

namespace AIMatching

/-- Projection of the overall score out of a scored candidate. -/
theorem score_candidate_match_score (required : List Str)
    (sen exp emp : Option Str) (loc : Option (List Str)) (c : Candidate) :
    (score_candidate required sen exp emp loc c).match_score =
      total_score (calculate_skill_similarity required c.skills).1
        (exp_score_of exp c) (seniority_score_of sen c)
        (employment_score_of emp c) (location_score_of loc c) := rfl

theorem exp_score_of_le_one (exp : Option Str) (c : Candidate) : exp_score_of exp c ≤ 1 := by
  unfold exp_score_of
  split
  · split
    · exact le_refl 1
    · exact calculate_experience_match_le_one _ c.experience_years
  · exact le_refl 1

theorem seniority_score_of_le_one (sen : Option Str) (c : Candidate) :
    seniority_score_of sen c ≤ 1 := by
  unfold seniority_score_of
  split
  · split
    · exact le_refl 1
    · exact calculate_seniority_match_le_one _ c.seniority
  · exact le_refl 1

theorem employment_score_of_le_one (emp : Option Str) (c : Candidate) :
    employment_score_of emp c ≤ 1 := by
  unfold employment_score_of
  split
  · split
    · exact le_refl 1
    · exact calculate_employment_match_le_one _ c.employment_type
  · exact le_refl 1

theorem location_score_of_le_one (loc : Option (List Str)) (c : Candidate) :
    location_score_of loc c ≤ 1 := by
  unfold location_score_of
  split
  · split
    · exact le_refl 1
    · exact calculate_location_match_le_one _ c.location
  · exact le_refl 1

end AIMatching

namespace AIMatching

/-- **C3** — The weighted skill matcher `_calculate_skill_similarity` returns,
for every non-empty required-skill list, a skill sub-score equal to
(sum of weights of matched required skills) / (sum of weights of all required
skills), where a required skill is matched when it is a substring of, or
contains, some candidate skill token after preprocessing; unknown skills carry
weight 1.0; for an empty required-skill list it returns score 1.0 with empty
matched and gap sets; candidate {python, docker} against required {python, rag}
scores weight(python)/(weight(python)+weight(rag)). -/
theorem C3_weighted_skill_matcher (required cand : List Str) :
    (required = [] → calculate_skill_similarity required cand = (1, [], [])) ∧
    (required ≠ [] →
      (calculate_skill_similarity required cand).1 =
        weightSum ((required.map preprocess_text).filter (fun r => matchesSome cand r))
          / weightSum (required.map preprocess_text)) ∧
    (∀ s : Str, skill_weights_table.find? (fun p => p.1 == s) = none →
      skill_weights s = 1) ∧
    (calculate_skill_similarity ["python".data, "rag".data]
        ["python".data, "docker".data]).1
      = skill_weights (preprocess_text "python".data)
          / (skill_weights (preprocess_text "python".data)
             + skill_weights (preprocess_text "rag".data)) := by
  refine ⟨?_, ?_, ?_, ?_⟩
  · intro h
    subst h
    simp [calculate_skill_similarity]
  · intro h
    exact skill_fst_eq required cand h
  · intro s h
    unfold skill_weights
    rw [h]
  · with_unfolding_all decide

/-- Witness for C3 at concrete inputs. -/
theorem C3_weighted_skill_matcher_witness :
    calculate_skill_similarity ([] : List Str) ["x".data] = (1, [], []) ∧
    (calculate_skill_similarity ["python".data] ["py".data]).1 =
      weightSum ((["python".data].map preprocess_text).filter
          (fun r => matchesSome ["py".data] r))
        / weightSum (["python".data].map preprocess_text) :=
  ⟨(C3_weighted_skill_matcher [] ["x".data]).1 rfl,
   (C3_weighted_skill_matcher ["python".data] ["py".data]).2.1
     (List.cons_ne_nil _ _)⟩

/-- **C6** — The experience matcher, using the fixed bucket-to-rank table,
returns 1.0 when the candidate's rank is at least the required rank, returns
`max(0.1, 0.1 + (cand_rank/req_rank)*0.9)` when it is below (so the result is
then always ≥ 0.1 and < 1.0), and returns the neutral 0.5 when either label is
unknown or unspecified (rank 0). -/
theorem C6_experience_matcher (required candidate : Str) :
    ((exp_map (lowerStr required) = 0 ∨ exp_map (lowerStr candidate) = 0) →
        calculate_experience_match required candidate = 1/2) ∧
    (¬(exp_map (lowerStr required) = 0 ∨ exp_map (lowerStr candidate) = 0) →
        exp_map (lowerStr candidate) ≥ exp_map (lowerStr required) →
        calculate_experience_match required candidate = 1) ∧
    (¬(exp_map (lowerStr required) = 0 ∨ exp_map (lowerStr candidate) = 0) →
        exp_map (lowerStr candidate) < exp_map (lowerStr required) →
        calculate_experience_match required candidate =
            max (1/10) (1/10 + ((exp_map (lowerStr candidate) : ℚ) /
              (exp_map (lowerStr required) : ℚ)) * (9/10))
          ∧ 1/10 ≤ calculate_experience_match required candidate
          ∧ calculate_experience_match required candidate < 1) := by
  refine ⟨?_, ?_, ?_⟩
  · intro h
    unfold calculate_experience_match
    rw [if_pos h]
  · intro h hge
    unfold calculate_experience_match
    rw [if_neg h, if_pos hge]
  · intro h hlt
    have heq : calculate_experience_match required candidate =
        max (1/10) (1/10 + ((exp_map (lowerStr candidate) : ℚ) /
          (exp_map (lowerStr required) : ℚ)) * (9/10)) := by
      unfold calculate_experience_match
      rw [if_neg h, if_neg (not_le.mpr hlt)]
    refine ⟨heq, ?_, ?_⟩
    · rw [heq]
      exact le_max_left _ _
    · rw [heq]
      have hr0 : 0 < exp_map (lowerStr required) :=
        Nat.pos_of_ne_zero (fun hh => h (Or.inl hh))
      have hdiv : ((exp_map (lowerStr candidate) : ℚ) /
          (exp_map (lowerStr required) : ℚ)) < 1 := by
        rw [div_lt_one (by exact_mod_cast hr0)]
        exact_mod_cast hlt
      apply max_lt
      · norm_num
      · have hc0 : (0 : ℚ) ≤ (exp_map (lowerStr candidate) : ℚ) := Nat.cast_nonneg _
        nlinarith

/-- Witness for C6: `required="10+"`, `candidate="1-3"` hits the strictly-lower
branch (value 0.325, within [0.1, 1)); an unknown required label yields 0.5. -/
theorem C6_experience_matcher_witness :
    (calculate_experience_match "10+".data "1-3".data =
        max (1/10) (1/10 + ((exp_map (lowerStr "1-3".data) : ℚ) /
          (exp_map (lowerStr "10+".data) : ℚ)) * (9/10))
      ∧ 1/10 ≤ calculate_experience_match "10+".data "1-3".data
      ∧ calculate_experience_match "10+".data "1-3".data < 1) ∧
    calculate_experience_match "".data "1-3".data = 1/2 :=
  ⟨(C6_experience_matcher "10+".data "1-3".data).2.2
      (by with_unfolding_all decide) (by with_unfolding_all decide),
   (C6_experience_matcher "".data "1-3".data).1
      (by with_unfolding_all decide)⟩

/-- **C7** — The pure scoring core is deterministic: two runs of
`match_candidates` on identical inputs (same dataset, same requirement) produce
identical output lists — the same candidate ordering and the same scores.  The
function makes no external-analyzer call, so the embedding is a pure function
and determinism is definitional. -/
theorem C7_determinism (d1 d2 : List Candidate) (required : List Str)
    (sen exp emp : Option Str) (loc : Option (List Str)) (n : Int)
    (h : d1 = d2) :
    match_candidates d1 required sen exp emp loc n
      = match_candidates d2 required sen exp emp loc n := by
  rw [h]

/-- Witness for C7 on a concrete one-candidate dataset. -/
theorem C7_determinism_witness :
    match_candidates
        [⟨"a".data, "senior".data, ["python".data], "1-3".data, "full-time".data, []⟩]
        ["python".data] none none none none 10
      = match_candidates
        [⟨"a".data, "senior".data, ["python".data], "1-3".data, "full-time".data, []⟩]
        ["python".data] none none none none 10 :=
  C7_determinism _ _ ["python".data] none none none none 10 rfl

end AIMatching

namespace AIMatching

/-- Appending one skill to the candidate list can only extend the set of matched
required skills. -/
theorem matchesSome_append_one (cs : List Str) (s : Str) (r : Str) :
    matchesSome (cs ++ [s]) r
      = (matchesSome cs r || crossMatch r (preprocess_text s)) := by
  simp [matchesSome, List.any_append]

/-- **C1** — Holding everything else fixed, adding to a candidate's skills a
skill that is in `required_skills` and was previously missing strictly increases
that candidate's skill sub-score (in particular the score was below the cap) and
never decreases the candidate's overall match score; more generally the skill
sub-score, and hence the overall score, is monotonically non-decreasing in the
set of matched required skills. -/
theorem C1_skill_monotonicity (required : List Str) (c : Candidate) (s : Str)
    (hreq : required ≠ []) (hs : s ∈ required)
    (hmiss : preprocess_text s ∈ (calculate_skill_similarity required c.skills).2.1) :
    (calculate_skill_similarity required c.skills).1
        < (calculate_skill_similarity required (c.skills ++ [s])).1
    ∧ (∀ (sen exp emp : Option Str) (loc : Option (List Str)),
        (score_candidate required sen exp emp loc c).match_score
          ≤ (score_candidate required sen exp emp loc
              { c with skills := c.skills ++ [s] }).match_score)
    ∧ (∀ cs₁ cs₂ : List Str,
        (∀ r : Str, matchesSome cs₁ r = true → matchesSome cs₂ r = true) →
        (calculate_skill_similarity required cs₁).1
          ≤ (calculate_skill_similarity required cs₂).1) := by
  have hmap : required.map preprocess_text ≠ [] := by simpa using hreq
  have hT : 0 < weightSum (required.map preprocess_text) := weightSum_pos _ hmap
  have hgen : ∀ cs₁ cs₂ : List Str,
      (∀ r : Str, matchesSome cs₁ r = true → matchesSome cs₂ r = true) →
      (calculate_skill_similarity required cs₁).1
        ≤ (calculate_skill_similarity required cs₂).1 := by
    intro cs₁ cs₂ hmono
    rw [skill_fst_eq required cs₁ hreq, skill_fst_eq required cs₂ hreq,
      div_le_div_iff_of_pos_right hT]
    exact weightSum_filter_le _ _ _ (fun r _ h => hmono r h)
  have hstrict : (calculate_skill_similarity required c.skills).1
      < (calculate_skill_similarity required (c.skills ++ [s])).1 := by
    rw [skill_fst_eq required c.skills hreq, skill_fst_eq required (c.skills ++ [s]) hreq]
    rw [div_lt_div_iff_of_pos_right hT]
    have hmono : ∀ r ∈ required.map preprocess_text,
        matchesSome c.skills r = true → matchesSome (c.skills ++ [s]) r = true := by
      intro r _ h
      rw [matchesSome_append_one, h, Bool.true_or]
    have hgap := (mem_gaps_iff required c.skills hreq (preprocess_text s)).mp hmiss
    refine weightSum_filter_lt _ _ _ hmono (preprocess_text s) ?_ hgap.2 ?_
    · exact List.mem_map_of_mem preprocess_text hs
    · rw [matchesSome_append_one, crossMatch_self, Bool.or_true]
  refine ⟨hstrict, ?_, hgen⟩
  intro sen exp emp loc
  rw [score_candidate_match_score, score_candidate_match_score]
  exact total_score_mono (le_of_lt hstrict) (le_refl _) (le_refl _) (le_refl _) (le_refl _)

/-- Witness for C1: candidate with skills ["python"] gains the missing required
skill "rag" for the requirement ["python","rag"]. -/
theorem C1_skill_monotonicity_witness :
    (calculate_skill_similarity ["python".data, "rag".data] ["python".data]).1
        < (calculate_skill_similarity ["python".data, "rag".data]
            (["python".data] ++ ["rag".data])).1
    ∧ (score_candidate ["python".data, "rag".data] none none none none
          ⟨"a".data, "senior".data, ["python".data], "1-3".data, "full-time".data, []⟩).match_score
        ≤ (score_candidate ["python".data, "rag".data] none none none none
          ⟨"a".data, "senior".data, ["python".data] ++ ["rag".data], "1-3".data,
            "full-time".data, []⟩).match_score :=
  ⟨(C1_skill_monotonicity ["python".data, "rag".data]
      ⟨"a".data, "senior".data, ["python".data], "1-3".data, "full-time".data, []⟩
      "rag".data (by with_unfolding_all decide) (by with_unfolding_all decide)
      (by with_unfolding_all decide)).1,
   (C1_skill_monotonicity ["python".data, "rag".data]
      ⟨"a".data, "senior".data, ["python".data], "1-3".data, "full-time".data, []⟩
      "rag".data (by with_unfolding_all decide) (by with_unfolding_all decide)
      (by with_unfolding_all decide)).2.1 none none none none⟩

end AIMatching

/-- Taking `k` elements of a list is a prefix of taking `k + 1`. -/
theorem take_isPrefix_take_succ (l : List α) (k : ℕ) :
    List.IsPrefix (l.take k) (l.take (k + 1)) := by
  have h1 : (l.take (k + 1)).take k = l.take k := by
    rw [List.take_take]
    congr 1
    omega
  exact ⟨(l.take (k + 1)).drop k, by rw [← h1, List.take_append_drop]⟩

namespace AIMatching

/-- **C4** — The list returned by `match_candidates` is sorted by overall score
in descending order; exact ties preserve the candidates' original dataset order
(the sort is stable: for every score value, the sorted pool restricted to that
score equals the unsorted, dataset-ordered pool restricted to it); and for every
`k ≥ 0`, `match_candidates` with `top_n = k` is a prefix of `match_candidates`
with `top_n = k + 1`. -/
theorem C4_sorted_stable_prefix (dataset : List Candidate) (required : List Str)
    (sen exp emp : Option Str) (loc : Option (List Str)) (n : Int) (k : ℕ) :
    (match_candidates dataset required sen exp emp loc n).Pairwise
        (fun a b => b.match_score ≤ a.match_score)
    ∧ (∀ q : ℚ,
        (sortDescBy (fun m => m.match_score)
            (raw_matches dataset required sen exp emp loc)).filter
            (fun m => decide (m.match_score = q))
          = (raw_matches dataset required sen exp emp loc).filter
              (fun m => decide (m.match_score = q)))
    ∧ List.IsPrefix (match_candidates dataset required sen exp emp loc (k : Int))
        (match_candidates dataset required sen exp emp loc ((k : Int) + 1)) := by
  refine ⟨?_, ?_, ?_⟩
  · exact List.Pairwise.sublist (pySlice_sublist n _) (pairwise_sortDescBy _ _)
  · intro q
    exact filter_sortDescBy _ _ q
  · unfold match_candidates pySlice
    rw [if_pos (by omega), if_pos (by omega)]
    have h1 : ((k : Int)).toNat = k := by omega
    have h2 : ((k : Int) + 1).toNat = k + 1 := by omega
    rw [h1, h2]
    exact take_isPrefix_take_succ _ k

/-- **C5 (counterexample)** — the claim "`top_n ≤ 0` returns an empty list" fails
on the code: `matches[:top_n]` follows Python slice semantics, so `top_n = -1`
on a two-candidate dataset returns one candidate, not the empty list. -/
theorem C5_counterexample :
    (-1 : Int) ≤ 0
    ∧ match_candidates
        [⟨"a".data, "senior".data, ["python".data], "1-3".data, "full-time".data, []⟩,
         ⟨"b".data, "junior".data, ["rag".data], "3-5".data, "remote".data, []⟩]
        ["python".data] none none none none (-1) ≠ [] := by
  constructor
  · decide
  · with_unfolding_all decide

/-- **C5 (amended)** — `top_n = 0` returns the empty list; `top_n` at least the
number of scored candidates (the whole dataset in this lenient engine) returns
the whole sorted pool; truncation is exactly the Python slice of the sorted list
(so it never reorders); and a negative `top_n` drops the last `|top_n|` elements
of the sorted pool, per Python slice semantics. -/
theorem C5_truncation (dataset : List Candidate) (required : List Str)
    (sen exp emp : Option Str) (loc : Option (List Str)) (n : Int) :
    (n = 0 → match_candidates dataset required sen exp emp loc n = [])
    ∧ ((dataset.length : Int) ≤ n →
        match_candidates dataset required sen exp emp loc n
          = sortDescBy (fun m => m.match_score)
              (raw_matches dataset required sen exp emp loc))
    ∧ (match_candidates dataset required sen exp emp loc n
        = pySlice n (sortDescBy (fun m => m.match_score)
            (raw_matches dataset required sen exp emp loc)))
    ∧ (n < 0 → match_candidates dataset required sen exp emp loc n
        = (sortDescBy (fun m => m.match_score)
            (raw_matches dataset required sen exp emp loc)).take
              (dataset.length - (-n).toNat)) := by
  have hlen : (sortDescBy (fun m => m.match_score)
      (raw_matches dataset required sen exp emp loc)).length = dataset.length := by
    rw [length_sortDescBy]
    unfold raw_matches
    exact List.length_map _ _
  refine ⟨?_, ?_, rfl, ?_⟩
  · intro h
    subst h
    unfold match_candidates pySlice
    rw [if_pos (le_refl 0)]
    rfl
  · intro h
    unfold match_candidates pySlice
    have h0 : (0 : Int) ≤ n := le_trans (by exact_mod_cast Nat.zero_le _) h
    rw [if_pos h0]
    apply List.take_of_length_le
    rw [hlen]
    omega
  · intro h
    unfold match_candidates pySlice
    rw [if_neg (not_le.mpr h), hlen]

/-- Witness for C5 (amended) at concrete inputs. -/
theorem C5_truncation_witness :
    (match_candidates
        [⟨"a".data, "senior".data, ["python".data], "1-3".data, "full-time".data, []⟩]
        ["python".data] none none none none 0 = [])
    ∧ (match_candidates
        [⟨"a".data, "senior".data, ["python".data], "1-3".data, "full-time".data, []⟩]
        ["python".data] none none none none 5
          = sortDescBy (fun m => m.match_score)
              (raw_matches
                [⟨"a".data, "senior".data, ["python".data], "1-3".data, "full-time".data, []⟩]
                ["python".data] none none none none)) :=
  ⟨(C5_truncation _ ["python".data] none none none none 0).1 rfl,
   (C5_truncation _ ["python".data] none none none none 5).2.1 (by decide)⟩

end AIMatching

namespace AIMatching

/-- **C10** — In the lenient engine, whenever an optional requirement dimension
(seniority, experience_years, employment_type, locations) is omitted (`None` or
empty, i.e. falsy), that dimension's sub-score is exactly 1.0 for every
candidate — so the neutral 0.5 default can only arise when the dimension is
supplied — and omitting a filter never lowers any candidate's overall score
(the overall score with the dimension supplied is at most the overall score with
it omitted). -/
theorem C10_omitted_dimension_neutral (c : Candidate) (required : List Str)
    (sen exp emp : Option Str) (loc : Option (List Str)) :
    ((score_candidate required none exp emp loc c).seniority_match = 1
      ∧ (score_candidate required (some []) exp emp loc c).seniority_match = 1)
    ∧ ((score_candidate required sen none emp loc c).experience_match = 1
      ∧ (score_candidate required sen (some []) emp loc c).experience_match = 1)
    ∧ ((score_candidate required sen exp none loc c).employment_match = 1
      ∧ (score_candidate required sen exp (some []) loc c).employment_match = 1)
    ∧ ((score_candidate required sen exp emp none c).location_match = 1
      ∧ (score_candidate required sen exp emp (some []) c).location_match = 1)
    ∧ ((score_candidate required sen exp emp loc c).match_score
        ≤ (score_candidate required none exp emp loc c).match_score)
    ∧ ((score_candidate required sen exp emp loc c).match_score
        ≤ (score_candidate required sen none emp loc c).match_score)
    ∧ ((score_candidate required sen exp emp loc c).match_score
        ≤ (score_candidate required sen exp none loc c).match_score)
    ∧ ((score_candidate required sen exp emp loc c).match_score
        ≤ (score_candidate required sen exp emp none c).match_score) := by
  refine ⟨⟨rfl, rfl⟩, ⟨rfl, rfl⟩, ⟨rfl, rfl⟩, ⟨rfl, rfl⟩, ?_, ?_, ?_, ?_⟩
  · rw [score_candidate_match_score, score_candidate_match_score]
    exact total_score_mono (le_refl _) (le_refl _) (seniority_score_of_le_one sen c)
      (le_refl _) (le_refl _)
  · rw [score_candidate_match_score, score_candidate_match_score]
    exact total_score_mono (le_refl _) (exp_score_of_le_one exp c) (le_refl _)
      (le_refl _) (le_refl _)
  · rw [score_candidate_match_score, score_candidate_match_score]
    exact total_score_mono (le_refl _) (le_refl _) (le_refl _)
      (employment_score_of_le_one emp c) (le_refl _)
  · rw [score_candidate_match_score, score_candidate_match_score]
    exact total_score_mono (le_refl _) (le_refl _) (le_refl _) (le_refl _)
      (location_score_of_le_one loc c)

end AIMatching

namespace AdvancedMatching

open AIMatching (Candidate)

/-- If the strict engine's loop body produced a result, the candidate passed the
hard gate: the result's `missing_skills` list is empty, its candidate and match
lists are as computed, and every lowercased required skill is among the
candidate's lowercased skills. -/
theorem score_one_some (required preferred : List Str)
    (sen loc emp exp : Option Str) (c : Candidate) (r : ScoredCandidate)
    (hfc : score_one required preferred sen loc emp exp c = some r) :
    r.candidate = c
    ∧ r.missing_skills = []
    ∧ r.skill_matches =
        (required.map lowerStr).filter (fun s => (c.skills.map lowerStr).contains s)
        ++ (preferred.map lowerStr).filter (fun s => (c.skills.map lowerStr).contains s)
    ∧ ∀ s ∈ required, lowerStr s ∈ c.skills.map lowerStr := by
  unfold score_one at hfc
  split at hfc
  · exact absurd hfc (by simp)
  · dsimp only at hfc
    split at hfc
    · exact absurd hfc (by simp)
    · rename_i hskips hmiss
      have hrec := Option.some.inj hfc
      have hnil : (required.map lowerStr).filter
          (fun s => !(c.skills.map lowerStr).contains s) = [] := by
        have h1 : ((required.map lowerStr).filter
            (fun s => !(c.skills.map lowerStr).contains s)).isEmpty = true := by
          simpa using hmiss
        exact List.isEmpty_iff.mp h1
      have hcov : ∀ s ∈ required, lowerStr s ∈ c.skills.map lowerStr := by
        intro s hs
        have hmem : lowerStr s ∈ required.map lowerStr := List.mem_map_of_mem lowerStr hs
        have := List.filter_eq_nil_iff.mp hnil (lowerStr s) hmem
        have hcontains : (c.skills.map lowerStr).contains (lowerStr s) = true := by
          simpa using this
        simpa using hcontains
      refine ⟨?_, ?_, ?_, hcov⟩
      · rw [← hrec]
      · rw [← hrec]
        exact hnil
      · rw [← hrec]

end AdvancedMatching

namespace AdvancedMatching

open AIMatching (Candidate)

/-- **C2** — In strict mode (`advanced_matching.py`), for every candidate and
every non-empty `required_skills` list, a candidate whose lowercased skill set
does not contain every lowercased required skill is excluded before scoring:
every returned result has an empty `missing_skills` list and its candidate's
lowercased skills contain every lowercased required skill; in particular a
candidate with skills ["python","docker"] is excluded when `required_skills` is
["python","rag"]. -/
theorem C2_strict_hard_gate (dataset : List Candidate)
    (required preferred : List Str) (sen loc emp exp : Option Str) (n : Int)
    (hreq : required ≠ []) :
    (∀ r ∈ match_candidates dataset required preferred sen loc emp exp n,
        r.missing_skills = []
        ∧ ∀ s ∈ required, lowerStr s ∈ r.candidate.skills.map lowerStr)
    ∧ match_candidates
        [⟨"c".data, "senior".data, ["python".data, "docker".data], "".data, "".data, []⟩]
        ["python".data, "rag".data] [] (some "senior".data) none none none 10 = [] := by
  constructor
  · intro r hr
    have hr2 := (pySlice_sublist n _).subset hr
    have hr3 := (mem_sortDescBy _ _ r).mp hr2
    rcases List.mem_filterMap.mp hr3 with ⟨c, _, hfc⟩
    obtain ⟨hcand, hmiss, _, hcov⟩ :=
      score_one_some required preferred sen loc emp exp c r hfc
    exact ⟨hmiss, by rw [hcand]; exact hcov⟩
  · with_unfolding_all decide

/-- Witness for C2 on a one-candidate dataset where the result pool is
non-empty. -/
theorem C2_strict_hard_gate_witness :
    ((⟨⟨"c".data, "senior".data, ["Python".data], "".data, "".data, []⟩, 50,
        ["python".data], []⟩ : ScoredCandidate).missing_skills = []
      ∧ ∀ s ∈ ["Python".data],
          lowerStr s ∈ (⟨⟨"c".data, "senior".data, ["Python".data], "".data, "".data, []⟩,
            50, ["python".data], []⟩ : ScoredCandidate).candidate.skills.map lowerStr) :=
  (C2_strict_hard_gate
      [⟨"c".data, "senior".data, ["Python".data], "".data, "".data, []⟩]
      ["Python".data] [] none none none none 10
      (List.cons_ne_nil _ _)).1
    ⟨⟨"c".data, "senior".data, ["Python".data], "".data, "".data, []⟩, 50,
      ["python".data], []⟩
    (by with_unfolding_all decide)

end AdvancedMatching

/-- **C9** — In every produced match result the matched-skills and
missing-skills sets are disjoint (for the lenient engine of `ai_matching.py`:
`skill_matches` and `skill_gaps`), and in strict mode (`advanced_matching.py`)
every admissible (returned) result additionally has
`matched ∪ missing ⊇ required` (lowercased). -/
theorem C9_matched_missing_disjoint (dataset : List AIMatching.Candidate)
    (required preferred : List Str) (sen exp emp : Option Str)
    (loc : Option (List Str)) (n : Int)
    (asen aloc aemp aexp : Option Str) (an : Int) :
    (∀ m ∈ AIMatching.match_candidates dataset required sen exp emp loc n,
        ∀ x ∈ m.skill_matches, x ∉ m.skill_gaps)
    ∧ (∀ r ∈ AdvancedMatching.match_candidates dataset required preferred
          asen aloc aemp aexp an,
        (∀ x ∈ r.skill_matches, x ∉ r.missing_skills)
        ∧ ∀ s ∈ required, lowerStr s ∈ r.skill_matches ++ r.missing_skills) := by
  constructor
  · intro m hm x hxm hxg
    have hm2 := (pySlice_sublist n _).subset hm
    have hm3 := (mem_sortDescBy _ _ m).mp hm2
    unfold AIMatching.raw_matches at hm3
    rcases List.mem_map.mp hm3 with ⟨c, _, hceq⟩
    subst hceq
    have hxm' : x ∈ (AIMatching.calculate_skill_similarity required c.skills).2.2 := hxm
    have hxg' : x ∈ (AIMatching.calculate_skill_similarity required c.skills).2.1 := hxg
    by_cases hreq : required = []
    · subst hreq
      simp [AIMatching.calculate_skill_similarity] at hxm'
    · have hxc := AIMatching.mem_matches_subset required c.skills hreq x hxm'
      have hgap := (AIMatching.mem_gaps_iff required c.skills hreq x).mp hxg'
      have hfalse : AIMatching.crossMatch x x = false := by
        have h2 := hgap.2
        rw [AIMatching.matchesSome, List.any_eq_false] at h2
        simpa using h2 x hxc
      rw [crossMatch_self] at hfalse
      exact absurd hfalse (by simp)
  · intro r hr
    have hr2 := (pySlice_sublist an _).subset hr
    have hr3 := (mem_sortDescBy _ _ r).mp hr2
    rcases List.mem_filterMap.mp hr3 with ⟨c, _, hfc⟩
    obtain ⟨hcand, hmiss, hmatched, hcov⟩ :=
      AdvancedMatching.score_one_some required preferred asen aloc aemp aexp c r hfc
    constructor
    · intro x _
      rw [hmiss]
      exact List.not_mem_nil x
    · intro s hs
      rw [hmatched, hmiss]
      refine List.mem_append_left _ (List.mem_append_left _ ?_)
      rw [List.mem_filter]
      refine ⟨List.mem_map_of_mem lowerStr hs, ?_⟩
      simpa using hcov s hs

/-- Witness for C9: a concrete element of each engine's output and a concrete
matched skill. -/
theorem C9_matched_missing_disjoint_witness :
    ("python".data ∉
      (AIMatching.score_candidate ["python".data] none none none none
        ⟨"c".data, "".data, ["python".data], "".data, "".data, []⟩).skill_gaps)
    ∧ ("python".data ∉
      (⟨⟨"c".data, "senior".data, ["Python".data], "".data, "".data, []⟩, 50,
        ["python".data], []⟩ : AdvancedMatching.ScoredCandidate).missing_skills) :=
  ⟨(C9_matched_missing_disjoint
      [⟨"c".data, "".data, ["python".data], "".data, "".data, []⟩]
      ["python".data] [] none none none none 10 none none none none 10).1
      (AIMatching.score_candidate ["python".data] none none none none
        ⟨"c".data, "".data, ["python".data], "".data, "".data, []⟩)
      (by with_unfolding_all decide)
      "python".data (by with_unfolding_all decide),
   ((C9_matched_missing_disjoint
      [⟨"c".data, "senior".data, ["Python".data], "".data, "".data, []⟩]
      ["Python".data] [] none none none none 10 none none none none 10).2
      ⟨⟨"c".data, "senior".data, ["Python".data], "".data, "".data, []⟩, 50,
        ["python".data], []⟩
      (by with_unfolding_all decide)).1
      "python".data (by with_unfolding_all decide)⟩

namespace Ranker

/-- **C8 (counterexample)** — the claim asserts an "explanatory annotation" is
attached to a candidate whose cultural-fit call fails.  The code attaches
nothing beyond the `ranking_scores` dict (the error is only printed to the
console): on a failing analyzer the complete returned record is exactly the
candidate plus its six rounded scores, with `cultural_fit` = 0.5 and no
annotation of any kind. -/
theorem C8_counterexample :
    rank_candidates (fun _ => none)
        [⟨"a".data, none, [], "junior".data⟩] (some "culture".data)
      = [⟨⟨"a".data, none, [], "junior".data⟩,
          ⟨49/100, 1/2, 1/2, 3/10, 7/10, 1/2⟩⟩] := by
  with_unfolding_all decide

/-- **C8 (amended)** — When the external cultural-fit call raises for one
candidate (analyzer returns `none`), that candidate's `cultural_fit_score` is
the neutral default 0.5 (the error is only printed to the console; no
annotation is attached to the returned record), the batch is not aborted (the
output has one entry per input candidate), and every other candidate's scores
are unaffected (they do not depend on the analyzer's behaviour on the failing
candidate). -/
theorem C8_cultural_fit_failure (analyzer : Analyzer)
    (candidates : List RankCandidate) (culture : Str) (c : RankCandidate)
    (hcult : culture ≠ []) (hfail : analyzer c = none) :
    (rank_one analyzer (some culture) c).ranking_scores.cultural_fit = 1/2
    ∧ (rank_candidates analyzer candidates (some culture)).length = candidates.length
    ∧ (∀ analyzer2 : Analyzer,
        (∀ d : RankCandidate, d ≠ c → analyzer2 d = analyzer d) →
        ∀ d : RankCandidate, d ≠ c →
          rank_one analyzer2 (some culture) d = rank_one analyzer (some culture) d) := by
  have htru : truthyStr (some culture) = true := by
    simp [truthyStr, List.isEmpty_iff, hcult]
  refine ⟨?_, ?_, ?_⟩
  · show round2 (if truthyStr (some culture) = true
        then calculate_cultural_fit analyzer c else 1/2) = 1/2
    rw [if_pos htru]
    unfold calculate_cultural_fit
    rw [hfail]
    with_unfolding_all decide
  · unfold rank_candidates
    rw [length_sortDescBy, List.length_map]
  · intro analyzer2 hagree d hd
    unfold rank_one calculate_cultural_fit
    rw [hagree d hd]

/-- Witness for C8 (amended) at a concrete failing analyzer and batch. -/
theorem C8_cultural_fit_failure_witness :
    ((rank_one (fun _ => none) (some "x".data)
        ⟨"a".data, none, [], "junior".data⟩).ranking_scores.cultural_fit = 1/2)
    ∧ ((rank_candidates (fun _ => none)
        [⟨"a".data, none, [], "junior".data⟩] (some "x".data)).length
      = [(⟨"a".data, none, [], "junior".data⟩ : RankCandidate)].length)
    ∧ (rank_one (fun _ => none) (some "x".data) ⟨"b".data, none, [], "senior".data⟩
        = rank_one (fun _ => none) (some "x".data) ⟨"b".data, none, [], "senior".data⟩) :=
  have h := C8_cultural_fit_failure (fun _ => none)
    [⟨"a".data, none, [], "junior".data⟩] "x".data
    ⟨"a".data, none, [], "junior".data⟩
    (by with_unfolding_all decide) rfl
  ⟨h.1, h.2.1,
   h.2.2 (fun _ => none) (fun _ _ => rfl) ⟨"b".data, none, [], "senior".data⟩
     (by with_unfolding_all decide)⟩

end Ranker
